import Mathlib

/-!
Verification of the avalon enclave work-order core.

Shallow embedding of `src/tc/sgx/trusted_worker_manager/enclave_wrapper/work_order_wrap.cpp`
(the request façade `HandleWorkOrderRequest`) together with the collaborators it
depends on.  The collaborators (`tcf::enclave_api::base`, `tcf::enclave_api::workorder`,
`tcf::enclave_queue` — the enclave pool, the work-order processor and the response
store) are not part of the repository snapshot, so they are modelled from the
specification (spec §4.1–§4.3, §7), as noted on each definition.

Conventions of the embedding:
* C++ error codes (`tcf_err_t`) plus `ThrowTCFError` become `Except TcfErr`:
  `ThrowTCFError` throws on a non-success code, which is exactly `Except` error
  propagation; a thrown exception unwinds through the façade.
* The RAII object `tcf::enclave_queue::ReadyEnclave` (destructor releases the
  enclave back to the pool on scope exit, i.e. on every exit path including
  exceptions) becomes an explicit `release` on every branch of the façade.
* Byte buffers are `String` (opaque, never parsed) or `List Nat` (response bytes).
* Each façade run also returns the list of collaborator calls it made, with the
  exact arguments, so that pass-through of arguments is a provable statement.
-/

/-- Error taxonomy of the core, from spec §7 (the non-success values of
`tcf_err_t` that this core can surface).  Success is `Except.ok`. -/
inductive TcfErr where
  | poolExhausted
  | invalidHandle
  | computationError (code : Nat)
  | unknownResponse
  | sizeMismatch
deriving DecidableEq, Repr

/-- Modelled from the spec: the enclave pool of §4.1 / §2 (`tcf::enclave_queue`,
absent from the snapshot).  `free` lists the indices of ready instances; `held`
records, for each outstanding acquisition, the pair (handle, caller). -/
structure EnclavePool where
  free : List Nat
  held : List (Nat × Nat)
deriving DecidableEq, Repr

/-- Modelled from the spec: `acquire() -> EnclaveHandle`, failing fast with
`PoolExhausted` when no instance is ready (spec §4.1 allows fail-fast). -/
def EnclavePool.acquire (caller : Nat) (p : EnclavePool) :
    (Except TcfErr Nat) × EnclavePool :=
  match p.free with
  | [] => (.error .poolExhausted, p)
  | idx :: rest => (.ok idx, ⟨rest, (idx, caller) :: p.held⟩)

/-- Modelled from the spec: `release(handle)` (spec §4.1), matched against the
recorded acquisition; a release without a matching acquire leaves the pool
unchanged (the spec calls it erroneous). -/
def EnclavePool.release (caller idx : Nat) (p : EnclavePool) : EnclavePool :=
  if (idx, caller) ∈ p.held then
    ⟨idx :: p.free, p.held.filter (fun e => e ≠ (idx, caller))⟩
  else p

/-- The collaborator `tcf::enclave_api::base::GetReadyEnclave` as called by
the façade: acquire a ready instance from the pool (spec §4.1, §9 "global
single ready enclave lookup"). -/
def base.GetReadyEnclave (caller : Nat) (p : EnclavePool) :
    (Except TcfErr Nat) × EnclavePool :=
  p.acquire caller

/-- Well-formedness of a pool state: no index appears twice among the free list
and the handles currently held.  Holds of any freshly initialised pool
(distinct instances, nothing held). -/
def EnclavePool.Wf (p : EnclavePool) : Prop :=
  (p.free ++ p.held.map Prod.fst).Nodup

instance (p : EnclavePool) : Decidable p.Wf :=
  inferInstanceAs (Decidable (List.Nodup _))

/-- A pool operation performed by some caller: the interleaving of concurrent
callers is an arbitrary sequence of these events (spec §5). -/
inductive PoolEvent where
  | acq (caller : Nat)
  | rel (caller idx : Nat)
deriving DecidableEq, Repr

/-- One pool transition. -/
def poolStep (p : EnclavePool) : PoolEvent → EnclavePool
  | .acq c => (p.acquire c).2
  | .rel c idx => p.release c idx

/-- Run a sequence of interleaved pool events. -/
def runPool (p : EnclavePool) : List PoolEvent → EnclavePool
  | [] => p
  | e :: es => runPool (poolStep p e) es

/-- Modelled from the spec: the response store of §4.3 (absent from the
snapshot).  Staged responses are keyed by the identifier handed out at `put`;
`nextId` is the next fresh identifier. -/
structure ResponseStore where
  nextId : Nat
  entries : List (Nat × List Nat)
deriving DecidableEq, Repr

/-- The empty response store. -/
def ResponseStore.empty : ResponseStore := ⟨0, []⟩

/-- Modelled from the spec: `put(bytes) -> ResponseIdentifier` (spec §4.3);
stages the bytes under a fresh identifier. -/
def ResponseStore.put (s : ResponseStore) (bytes : List Nat) :
    Nat × ResponseStore :=
  (s.nextId, ⟨s.nextId + 1, (s.nextId, bytes) :: s.entries⟩)

/-- Modelled from the spec: `take(id) -> bytes | UnknownResponse` (spec §4.3);
exactly-once — a successful take removes the staged entry. -/
def ResponseStore.take (s : ResponseStore) (id : Nat) :
    (Except TcfErr (List Nat)) × ResponseStore :=
  match s.entries.lookup id with
  | none => (.error .unknownResponse, s)
  | some bytes => (.ok bytes, ⟨s.nextId, s.entries.filter (fun e => e.1 ≠ id)⟩)

/-- Modelled from the spec: the work-order processor's `submit` (spec §4.2),
named after the collaborator the façade calls,
`tcf::enclave_api::workorder::HandleWorkOrderRequest`.  `compute` is the
enclave-internal trusted computation (out of scope, spec §1), abstract here; on
its failure the processor reports `ComputationError` wrapping the enclave
status code and stages nothing; on success the result is staged in the response
store and (identifier, size) is returned. -/
def workorder.HandleWorkOrderRequest
    (compute : String → String → Except Nat (List Nat))
    (st : ResponseStore) (sealed_signup_data serialized_request : String)
    (idx : Nat) : (Except TcfErr (Nat × Nat)) × ResponseStore :=
  match compute sealed_signup_data serialized_request with
  | .error code => (.error (.computationError code), st)
  | .ok bytes =>
    let r := st.put bytes
    (.ok (r.1, bytes.length), r.2)

/-- Modelled from the spec: the work-order processor's `fetch` (spec §4.2),
named after the collaborator the façade calls,
`tcf::enclave_api::workorder::GetSerializedResponse`.  The sealed signup data
parameter follows the source call signature (the spec's `fetch(handle,
response_id, expected_size)` omits it); it authorises retrieval and does not
affect the lookup.  Fails with `UnknownResponse` on a consumed or unknown
identifier, with `SizeMismatch` when the expected size disagrees with the
staged size (leaving the store unchanged: no partial data is released);
on success the staged entry is removed (single-fetch semantics). -/
def workorder.GetSerializedResponse
    (st : ResponseStore) (sealed_signup_data : String)
    (response_identifier response_size idx : Nat) :
    (Except TcfErr (List Nat)) × ResponseStore :=
  match st.entries.lookup response_identifier with
  | none => (.error .unknownResponse, st)
  | some bytes =>
    if bytes.length = response_size then
      (.ok bytes, ⟨st.nextId, st.entries.filter (fun e => e.1 ≠ response_identifier)⟩)
    else
      (.error .sizeMismatch, st)

/-- A collaborator call made by the façade, with the exact arguments passed. -/
inductive FacadeEvent where
  | acquireEv (caller : Nat)
  | submitEv (sealed_signup_data serialized_request : String) (idx : Nat)
  | fetchEv (sealed_signup_data : String) (response_identifier response_size idx : Nat)
  | releaseEv (caller idx : Nat)
deriving DecidableEq, Repr

/-- The shared state the façade operates on: the enclave pool and the response
store. -/
structure SysState where
  pool : EnclavePool
  store : ResponseStore
deriving DecidableEq, Repr

/-- The request façade, from the source
(`HandleWorkOrderRequest` in `work_order_wrap.cpp`): get a ready enclave,
submit the work order (`workorder.HandleWorkOrderRequest`), fetch the
serialized response (`workorder.GetSerializedResponse`), with `ThrowTCFError`
after each step rendered as `Except` propagation.  The `ReadyEnclave` RAII
value releases the instance back to the pool on scope exit, i.e. on every exit
path, so every branch ends in `release`.  Besides the result and the final
state, the run returns the list of collaborator calls made, with their exact
arguments. -/
def HandleWorkOrderRequest
    (compute : String → String → Except Nat (List Nat))
    (caller : Nat) (st : SysState)
    (sealed_signup_data serialized_request : String) :
    (Except TcfErr (List Nat)) × SysState × List FacadeEvent :=
  match base.GetReadyEnclave caller st.pool with
  | (.error e, pool') =>
    (.error e, ⟨pool', st.store⟩, [.acquireEv caller])
  | (.ok idx, pool') =>
    match workorder.HandleWorkOrderRequest compute st.store
        sealed_signup_data serialized_request idx with
    | (.error e, store') =>
      (.error e, ⟨pool'.release caller idx, store'⟩,
       [.acquireEv caller,
        .submitEv sealed_signup_data serialized_request idx,
        .releaseEv caller idx])
    | (.ok (response_identifier, response_size), store') =>
      match workorder.GetSerializedResponse store' sealed_signup_data
          response_identifier response_size idx with
      | (.error e, store'') =>
        (.error e, ⟨pool'.release caller idx, store''⟩,
         [.acquireEv caller,
          .submitEv sealed_signup_data serialized_request idx,
          .fetchEv sealed_signup_data response_identifier response_size idx,
          .releaseEv caller idx])
      | (.ok response, store'') =>
        (.ok response, ⟨pool'.release caller idx, store''⟩,
         [.acquireEv caller,
          .submitEv sealed_signup_data serialized_request idx,
          .fetchEv sealed_signup_data response_identifier response_size idx,
          .releaseEv caller idx])

/-! ## Helper lemmas -/

/-- After filtering out all entries keyed `id`, a lookup of `id` finds nothing. -/
theorem lookup_filter_key_ne (l : List (Nat × List Nat)) (id : Nat) :
    (l.filter (fun e => e.1 ≠ id)).lookup id = none := by
  induction l with
  | nil => rfl
  | cons e t ih =>
    obtain ⟨k, v⟩ := e
    by_cases h : k = id
    · simp only [List.filter_cons]
      rw [if_neg (by simp [h])]
      exact ih
    · simp only [List.filter_cons]
      rw [if_pos (by simp [h]), List.lookup_cons,
        show (id == k) = false from beq_false_of_ne (Ne.symm h)]
      exact ih

/-! ## Response store claims -/

/-- C4: for every byte sequence `bytes` (and every starting store state), a
Response Store `take` applied to the identifier returned by `put bytes`
returns exactly `bytes`: `take (put bytes) = bytes`. -/
theorem take_put_roundtrip (s : ResponseStore) (bytes : List Nat) :
    ((s.put bytes).2.take (s.put bytes).1).1 = Except.ok bytes := by
  simp [ResponseStore.put, ResponseStore.take, List.lookup_cons]

/-- C5: response retrieval is exactly-once.  (1) After a successful store
`take` of an identifier, a second `take` of the same identifier fails with
`UnknownResponse`; (2) likewise after a successful processor fetch
(`GetSerializedResponse`), a repeated fetch of the same identifier fails with
`UnknownResponse`; (3) a `take` of an identifier that is not staged (never
existed or already consumed) fails with `UnknownResponse`. -/
theorem retrieval_exactly_once :
    (∀ (s s' : ResponseStore) (id : Nat) (bytes : List Nat),
      s.take id = (Except.ok bytes, s') →
      (s'.take id).1 = Except.error TcfErr.unknownResponse) ∧
    (∀ (s s' : ResponseStore) (sealed : String) (id n n' idx idx' : Nat)
      (bytes : List Nat),
      workorder.GetSerializedResponse s sealed id n idx = (Except.ok bytes, s') →
      (workorder.GetSerializedResponse s' sealed id n' idx').1
        = Except.error TcfErr.unknownResponse) ∧
    (∀ (s : ResponseStore) (id : Nat), s.entries.lookup id = none →
      (s.take id).1 = Except.error TcfErr.unknownResponse) := by
  refine ⟨?_, ?_, ?_⟩
  · intro s s' id bytes h
    unfold ResponseStore.take at h ⊢
    cases hl : s.entries.lookup id with
    | none => rw [hl] at h; simp at h
    | some b =>
      rw [hl] at h
      simp only [Prod.mk.injEq] at h
      rw [← h.2]
      simp only [lookup_filter_key_ne]
  · intro s s' sealed id n n' idx idx' bytes h
    unfold workorder.GetSerializedResponse at h ⊢
    cases hl : s.entries.lookup id with
    | none => rw [hl] at h; simp at h
    | some b =>
      rw [hl] at h
      dsimp only at h
      by_cases hsz : b.length = n
      · rw [if_pos hsz] at h
        simp only [Prod.mk.injEq, Except.ok.injEq] at h
        rw [← h.2]
        simp only [lookup_filter_key_ne]
      · rw [if_neg hsz] at h
        simp at h
  · intro s id h
    unfold ResponseStore.take
    rw [h]

/-- C5 witness: a response staged under identifier 0 is taken once
successfully; the second take of identifier 0 fails with `UnknownResponse`. -/
theorem retrieval_exactly_once_witness :
    (((ResponseStore.mk 1 [(0, [5])]).take 0).2.take 0).1
      = Except.error TcfErr.unknownResponse :=
  retrieval_exactly_once.1 ⟨1, [(0, [5])]⟩ ⟨1, []⟩ 0 [5] rfl

/-- C6: a fetch (`GetSerializedResponse`) whose expected size differs from the
`ResponseSize` returned by the corresponding submit fails with `SizeMismatch`
and leaves the response store exactly as it was: no (partial) response data is
released. -/
theorem fetch_size_mismatch
    (compute : String → String → Except Nat (List Nat))
    (st0 st : ResponseStore) (sealed req : String) (rid rsize idx idx' n : Nat)
    (hsubmit : workorder.HandleWorkOrderRequest compute st0 sealed req idx
      = (Except.ok (rid, rsize), st))
    (hne : n ≠ rsize) :
    workorder.GetSerializedResponse st sealed rid n idx'
      = (Except.error TcfErr.sizeMismatch, st) := by
  unfold workorder.HandleWorkOrderRequest at hsubmit
  cases hc : compute sealed req with
  | error code => rw [hc] at hsubmit; simp at hsubmit
  | ok bytes =>
    rw [hc] at hsubmit
    simp only [ResponseStore.put, Prod.mk.injEq, Except.ok.injEq] at hsubmit
    obtain ⟨⟨hrid, hrsize⟩, hst⟩ := hsubmit
    subst hrid hrsize hst
    unfold workorder.GetSerializedResponse
    rw [List.lookup_cons]
    simp [Ne.symm hne]

/-- C6 witness: the submit of a 2-byte response returns size 2; a fetch asking
for 5 bytes fails with `SizeMismatch` and the store is unchanged. -/
theorem fetch_size_mismatch_witness :
    workorder.GetSerializedResponse ⟨1, [(0, [7, 8])]⟩ "sealed" 0 5 3
      = (Except.error TcfErr.sizeMismatch, ⟨1, [(0, [7, 8])]⟩) :=
  fetch_size_mismatch (fun _ _ => Except.ok [7, 8]) ResponseStore.empty
    ⟨1, [(0, [7, 8])]⟩ "sealed" "req" 0 2 4 3 5 rfl (by decide)

/-! ## Enclave pool claims -/

/-- A single pool transition preserves well-formedness. -/
theorem poolStep_wf (p : EnclavePool) (e : PoolEvent) (h : p.Wf) :
    (poolStep p e).Wf := by
  cases e with
  | acq c =>
    show ((p.acquire c).2).Wf
    unfold EnclavePool.acquire
    cases hf : p.free with
    | nil => exact h
    | cons idx rest =>
      show (rest ++ ((idx, c) :: p.held).map Prod.fst).Nodup
      unfold EnclavePool.Wf at h
      rw [hf] at h
      simp only [List.map_cons]
      refine (List.perm_middle.nodup_iff).mpr ?_
      simpa using h
  | rel c idx =>
    show (p.release c idx).Wf
    unfold EnclavePool.release
    by_cases hmem : (idx, c) ∈ p.held
    · rw [if_pos hmem]
      unfold EnclavePool.Wf at h ⊢
      rw [List.nodup_append] at h
      obtain ⟨hfree, hheld, hdisj⟩ := h
      have hsub : (p.held.filter (fun e => e ≠ (idx, c))).Sublist p.held :=
        List.filter_sublist p.held
      have hsubmap :
          ((p.held.filter (fun e => e ≠ (idx, c))).map Prod.fst).Sublist
            (p.held.map Prod.fst) := hsub.map Prod.fst
      have hnodupf : ((p.held.filter (fun e => e ≠ (idx, c))).map Prod.fst).Nodup :=
        hheld.sublist hsubmap
      have hidxheld : idx ∈ p.held.map Prod.fst :=
        List.mem_map.mpr ⟨(idx, c), hmem, rfl⟩
      have hidxnotfree : idx ∉ p.free := fun hin => hdisj hin hidxheld
      have hidxnotf :
          idx ∉ (p.held.filter (fun e => e ≠ (idx, c))).map Prod.fst := by
        intro hin
        obtain ⟨e, he, hfst⟩ := List.mem_map.mp hin
        have he' : e ∈ p.held := List.mem_of_mem_filter he
        have hne : e ≠ (idx, c) := by simpa using List.of_mem_filter he
        exact hne (List.inj_on_of_nodup_map hheld he' hmem (by simp [hfst]))
      simp only [List.cons_append, List.nodup_cons, List.nodup_append]
      refine ⟨?_, hfree, hnodupf, ?_⟩
      · intro hin
        rcases List.mem_append.mp hin with h1 | h2
        · exact hidxnotfree h1
        · exact hidxnotf h2
      · intro a ha hin2
        exact hdisj ha (hsubmap.subset hin2)
    · rw [if_neg hmem]
      exact h

/-- Running any sequence of pool events from a well-formed pool keeps it
well-formed. -/
theorem runPool_wf (p : EnclavePool) (es : List PoolEvent) (h : p.Wf) :
    (runPool p es).Wf := by
  induction es generalizing p with
  | nil => exact h
  | cons e es ih => exact ih (poolStep p e) (poolStep_wf p e h)

/-- C3: at every reachable instant of any interleaving of acquire/release
events by any callers, each enclave handle is held by at most one caller: the
handles of the outstanding acquisitions are pairwise distinct. -/
theorem pool_single_holder (p0 : EnclavePool) (es : List PoolEvent)
    (h : p0.Wf) : ((runPool p0 es).held.map Prod.fst).Nodup :=
  (runPool_wf p0 es h).of_append_right

/-- C3 witness: from a two-instance pool, callers 5 and 6 acquire, caller 5
releases and caller 7 acquires; at this instant the held handles are pairwise
distinct. -/
theorem pool_single_holder_witness :
    EnclavePool.Wf ⟨[0, 1], []⟩ ∧
    ((runPool ⟨[0, 1], []⟩
        [.acq 5, .acq 6, .rel 5 0, .acq 7]).held.map Prod.fst).Nodup :=
  ⟨by decide, pool_single_holder ⟨[0, 1], []⟩ [.acq 5, .acq 6, .rel 5 0, .acq 7]
    (by decide)⟩

/-! ## Façade claims -/

/-- Shape of a successful acquisition: the handle handed out is the head of
the pool's free list and is recorded as held by the caller. -/
theorem GetReadyEnclave_ok (caller idx : Nat) (p p' : EnclavePool)
    (h : base.GetReadyEnclave caller p = (Except.ok idx, p')) :
    p.free = idx :: p'.free ∧ p'.held = (idx, caller) :: p.held := by
  unfold base.GetReadyEnclave EnclavePool.acquire at h
  cases hf : p.free with
  | nil => rw [hf] at h; simp at h
  | cons a rest =>
    rw [hf] at h
    simp only [Prod.mk.injEq, Except.ok.injEq] at h
    obtain ⟨h1, h2⟩ := h
    subst h1
    rw [← h2]
    exact ⟨rfl, rfl⟩

/-- Releasing the handle just acquired puts it back on the pool's free list. -/
theorem release_after_acquire (caller idx : Nat) (p p' : EnclavePool)
    (h : base.GetReadyEnclave caller p = (Except.ok idx, p')) :
    idx ∈ (p'.release caller idx).free := by
  obtain ⟨-, hheld⟩ := GetReadyEnclave_ok caller idx p p' h
  unfold EnclavePool.release
  rw [if_pos (by rw [hheld]; exact List.mem_cons_self _ _)]
  exact List.mem_cons_self _ _

/-- C1: whenever the façade's initial acquisition succeeds, the acquired
EnclaveHandle is released back to the pool on every exit path — on success and
also when the submit step or the fetch step fails: the collaborator trace
contains the release call and the handle is back on the pool's free list in
the final state. -/
theorem facade_releases_on_all_paths
    (compute : String → String → Except Nat (List Nat)) (caller : Nat)
    (st : SysState) (sealed req : String) (idx : Nat) (pool' : EnclavePool)
    (hacq : base.GetReadyEnclave caller st.pool = (Except.ok idx, pool')) :
    FacadeEvent.releaseEv caller idx
      ∈ (HandleWorkOrderRequest compute caller st sealed req).2.2 ∧
    idx ∈ (HandleWorkOrderRequest compute caller st sealed req).2.1.pool.free := by
  have hrel := release_after_acquire caller idx st.pool pool' hacq
  unfold HandleWorkOrderRequest
  rw [hacq]
  dsimp only
  cases hsub : workorder.HandleWorkOrderRequest compute st.store sealed req idx with
  | mk r store' =>
    cases r with
    | error e => exact ⟨by simp, hrel⟩
    | ok pr =>
      obtain ⟨rid, rsize⟩ := pr
      dsimp only
      cases hf : workorder.GetSerializedResponse store' sealed rid rsize idx with
      | mk r2 store'' =>
        cases r2 with
        | error e => exact ⟨by simp, hrel⟩
        | ok resp => exact ⟨by simp, hrel⟩

/-- C1 witness: a concrete successful run with a one-instance pool; the
release call is in the trace and handle 3 is back on the free list. -/
theorem facade_releases_on_all_paths_witness :
    FacadeEvent.releaseEv 0 3
      ∈ (HandleWorkOrderRequest (fun _ _ => Except.ok [1]) 0
          ⟨⟨[3], []⟩, ResponseStore.empty⟩ "s" "r").2.2 ∧
    3 ∈ (HandleWorkOrderRequest (fun _ _ => Except.ok [1]) 0
          ⟨⟨[3], []⟩, ResponseStore.empty⟩ "s" "r").2.1.pool.free :=
  facade_releases_on_all_paths (fun _ _ => Except.ok [1]) 0
    ⟨⟨[3], []⟩, ResponseStore.empty⟩ "s" "r" 3 ⟨[], [(3, 0)]⟩ rfl

/-- C2: the first error returned by any composed step (acquire, submit, fetch)
is propagated unmodified as the façade's result (the caller's convention being
the `Except` error channel, i.e. the thrown exception of `ThrowTCFError`); the
façade performs no recovery or retry — its collaborator-call trace is exactly
one pass through the pipeline, stopping at the failing step — and after a
submit failure the fetch step is never attempted (no fetch call in the trace). -/
theorem facade_first_error_propagated
    (compute : String → String → Except Nat (List Nat)) (caller : Nat)
    (st : SysState) (sealed req : String) :
    (∀ e pool',
      base.GetReadyEnclave caller st.pool = (Except.error e, pool') →
      (HandleWorkOrderRequest compute caller st sealed req).1 = Except.error e ∧
      (HandleWorkOrderRequest compute caller st sealed req).2.2
        = [FacadeEvent.acquireEv caller]) ∧
    (∀ idx pool' e store',
      base.GetReadyEnclave caller st.pool = (Except.ok idx, pool') →
      workorder.HandleWorkOrderRequest compute st.store sealed req idx
        = (Except.error e, store') →
      (HandleWorkOrderRequest compute caller st sealed req).1 = Except.error e ∧
      (HandleWorkOrderRequest compute caller st sealed req).2.2
        = [FacadeEvent.acquireEv caller, FacadeEvent.submitEv sealed req idx,
           FacadeEvent.releaseEv caller idx]) ∧
    (∀ idx pool' rid rsize store' e store'',
      base.GetReadyEnclave caller st.pool = (Except.ok idx, pool') →
      workorder.HandleWorkOrderRequest compute st.store sealed req idx
        = (Except.ok (rid, rsize), store') →
      workorder.GetSerializedResponse store' sealed rid rsize idx
        = (Except.error e, store'') →
      (HandleWorkOrderRequest compute caller st sealed req).1 = Except.error e ∧
      (HandleWorkOrderRequest compute caller st sealed req).2.2
        = [FacadeEvent.acquireEv caller, FacadeEvent.submitEv sealed req idx,
           FacadeEvent.fetchEv sealed rid rsize idx,
           FacadeEvent.releaseEv caller idx]) := by
  refine ⟨?_, ?_, ?_⟩
  · intro e pool' hacq
    unfold HandleWorkOrderRequest
    rw [hacq]
    exact ⟨rfl, rfl⟩
  · intro idx pool' e store' hacq hsub
    unfold HandleWorkOrderRequest
    rw [hacq]
    dsimp only
    rw [hsub]
    exact ⟨rfl, rfl⟩
  · intro idx pool' rid rsize store' e store'' hacq hsub hf
    unfold HandleWorkOrderRequest
    rw [hacq]
    dsimp only
    rw [hsub]
    dsimp only
    rw [hf]
    exact ⟨rfl, rfl⟩

/-- C2 witness: with a failing trusted computation, the façade's result is the
unmodified `ComputationError 7` from the submit step and the trace stops at
submit (plus the release): no fetch call and no retry. -/
theorem facade_first_error_propagated_witness :
    (HandleWorkOrderRequest (fun _ _ => Except.error 7) 0
        ⟨⟨[3], []⟩, ResponseStore.empty⟩ "s" "r").1
      = Except.error (TcfErr.computationError 7) ∧
    (HandleWorkOrderRequest (fun _ _ => Except.error 7) 0
        ⟨⟨[3], []⟩, ResponseStore.empty⟩ "s" "r").2.2
      = [FacadeEvent.acquireEv 0, FacadeEvent.submitEv "s" "r" 3,
         FacadeEvent.releaseEv 0 3] :=
  (facade_first_error_propagated (fun _ _ => Except.error 7) 0
      ⟨⟨[3], []⟩, ResponseStore.empty⟩ "s" "r").2.1 3 ⟨[], [(3, 0)]⟩
    (TcfErr.computationError 7) ResponseStore.empty rfl rfl

/-- C7: when the submit step fails inside the façade, the operation is atomic
in its effects: the acquired handle is back on the pool's free list (no leak)
and the response store of the final state is exactly the initial one — no
ResponseIdentifier was created. -/
theorem facade_submit_failure_atomic
    (compute : String → String → Except Nat (List Nat)) (caller : Nat)
    (st : SysState) (sealed req : String) (idx : Nat) (pool' : EnclavePool)
    (e : TcfErr) (store' : ResponseStore)
    (hacq : base.GetReadyEnclave caller st.pool = (Except.ok idx, pool'))
    (hsub : workorder.HandleWorkOrderRequest compute st.store sealed req idx
      = (Except.error e, store')) :
    (HandleWorkOrderRequest compute caller st sealed req).2.1.store = st.store ∧
    idx ∈ (HandleWorkOrderRequest compute caller st sealed req).2.1.pool.free := by
  have hrel := release_after_acquire caller idx st.pool pool' hacq
  have hstore : store' = st.store := by
    unfold workorder.HandleWorkOrderRequest at hsub
    cases hc : compute sealed req with
    | error code =>
      rw [hc] at hsub
      simp only [Prod.mk.injEq] at hsub
      exact hsub.2.symm
    | ok bytes => rw [hc] at hsub; simp at hsub
  unfold HandleWorkOrderRequest
  rw [hacq]
  dsimp only
  rw [hsub]
  exact ⟨hstore, hrel⟩

/-- C7 witness: a failing submit on a one-instance pool leaves the store empty
(as it started) and handle 3 back on the free list. -/
theorem facade_submit_failure_atomic_witness :
    (HandleWorkOrderRequest (fun _ _ => Except.error 9) 0
        ⟨⟨[3], []⟩, ResponseStore.empty⟩ "s" "r").2.1.store
      = ResponseStore.empty ∧
    3 ∈ (HandleWorkOrderRequest (fun _ _ => Except.error 9) 0
        ⟨⟨[3], []⟩, ResponseStore.empty⟩ "s" "r").2.1.pool.free :=
  facade_submit_failure_atomic (fun _ _ => Except.error 9) 0
    ⟨⟨[3], []⟩, ResponseStore.empty⟩ "s" "r" 3 ⟨[], [(3, 0)]⟩
    (TcfErr.computationError 9) ResponseStore.empty rfl rfl

/-- C8: the sealed signup data and serialized request inputs are passed
through to the collaborator calls byte-for-byte unchanged: every submit call
in the façade's trace carries exactly the façade's two input buffers, and
every fetch call carries exactly the input sealed signup data.  (Buffers are
immutable values of the embedding, so both inputs are identical before and
after the call; the core never parses them — `compute` receives them opaque.) -/
theorem facade_buffers_passed_through
    (compute : String → String → Except Nat (List Nat)) (caller : Nat)
    (st : SysState) (sealed req : String) :
    (∀ s r i, FacadeEvent.submitEv s r i
        ∈ (HandleWorkOrderRequest compute caller st sealed req).2.2 →
      s = sealed ∧ r = req) ∧
    (∀ s i n j, FacadeEvent.fetchEv s i n j
        ∈ (HandleWorkOrderRequest compute caller st sealed req).2.2 →
      s = sealed) := by
  unfold HandleWorkOrderRequest
  cases hacq : base.GetReadyEnclave caller st.pool with
  | mk r pool' =>
    cases r with
    | error e =>
      constructor
      · intro s r i hm; simp at hm
      · intro s i n j hm; simp at hm
    | ok idx =>
      dsimp only
      cases hsub : workorder.HandleWorkOrderRequest compute st.store sealed req idx with
      | mk r2 store' =>
        cases r2 with
        | error e =>
          constructor
          · intro s r i hm
            simp at hm
            exact ⟨hm.1, hm.2.1⟩
          · intro s i n j hm; simp at hm
        | ok pr =>
          obtain ⟨rid, rsize⟩ := pr
          dsimp only
          cases hf : workorder.GetSerializedResponse store' sealed rid rsize idx with
          | mk r3 store'' =>
            cases r3 with
            | error e =>
              constructor
              · intro s r i hm
                simp at hm
                exact ⟨hm.1, hm.2.1⟩
              · intro s i n j hm
                simp at hm
                exact hm.1
            | ok resp =>
              constructor
              · intro s r i hm
                simp at hm
                exact ⟨hm.1, hm.2.1⟩
              · intro s i n j hm
                simp at hm
                exact hm.1

/-- C8 witness: in a concrete successful run with inputs "abc", "xyz", the
submit call in the trace carries exactly those buffers. -/
theorem facade_buffers_passed_through_witness :
    "abc" = "abc" ∧ "xyz" = "xyz" :=
  (facade_buffers_passed_through (fun _ _ => Except.ok [1]) 0
      ⟨⟨[3], []⟩, ResponseStore.empty⟩ "abc" "xyz").1 "abc" "xyz" 3
    (List.Mem.tail _ (List.Mem.head _))

/-- C9: within a single façade invocation, the index, response identifier and
response size passed to the fetch call are exactly the index obtained from
GetReadyEnclave and the identifier and size produced by the submit call,
unchanged: when acquire and submit succeed, the collaborator trace is exactly
acquire, submit(inputs at idx), fetch(sealed, rid, rsize, idx), release — so
the façade can never itself introduce a handle or size mismatch between
submit and fetch. -/
theorem facade_fetch_args_are_submit_results
    (compute : String → String → Except Nat (List Nat)) (caller : Nat)
    (st : SysState) (sealed req : String) (idx : Nat) (pool' : EnclavePool)
    (rid rsize : Nat) (store' : ResponseStore)
    (hacq : base.GetReadyEnclave caller st.pool = (Except.ok idx, pool'))
    (hsub : workorder.HandleWorkOrderRequest compute st.store sealed req idx
      = (Except.ok (rid, rsize), store')) :
    (HandleWorkOrderRequest compute caller st sealed req).2.2
      = [FacadeEvent.acquireEv caller, FacadeEvent.submitEv sealed req idx,
         FacadeEvent.fetchEv sealed rid rsize idx,
         FacadeEvent.releaseEv caller idx] := by
  unfold HandleWorkOrderRequest
  rw [hacq]
  dsimp only
  rw [hsub]
  dsimp only
  cases hf : workorder.GetSerializedResponse store' sealed rid rsize idx with
  | mk r3 store'' =>
    cases r3 with
    | error e => rfl
    | ok resp => rfl

/-- C9 witness: a concrete run where submit stages a 1-byte response under
identifier 0; the fetch call receives exactly (sealed, 0, 1, handle 2). -/
theorem facade_fetch_args_are_submit_results_witness :
    (HandleWorkOrderRequest (fun _ _ => Except.ok [9]) 0
        ⟨⟨[2], []⟩, ResponseStore.empty⟩ "sd" "rq").2.2
      = [FacadeEvent.acquireEv 0, FacadeEvent.submitEv "sd" "rq" 2,
         FacadeEvent.fetchEv "sd" 0 1 2, FacadeEvent.releaseEv 0 2] :=
  facade_fetch_args_are_submit_results (fun _ _ => Except.ok [9]) 0
    ⟨⟨[2], []⟩, ResponseStore.empty⟩ "sd" "rq" 2 ⟨[], [(2, 0)]⟩ 0 1
    ⟨1, [(0, [9])]⟩ rfl rfl

/-- C10: every fetch call the façade makes receives the same sealed signup
data string that was given to the submit call: any fetch event in the trace
carries the façade's sealed input, and the submit event of the same run
carries that very string (the spec's fetch signature omits this argument, but
retrieval requires it in addition to handle, identifier and size). -/
theorem facade_fetch_receives_sealed_data
    (compute : String → String → Except Nat (List Nat)) (caller : Nat)
    (st : SysState) (sealed req : String) :
    ∀ s i n j, FacadeEvent.fetchEv s i n j
        ∈ (HandleWorkOrderRequest compute caller st sealed req).2.2 →
      s = sealed ∧ FacadeEvent.submitEv s req j
        ∈ (HandleWorkOrderRequest compute caller st sealed req).2.2 := by
  unfold HandleWorkOrderRequest
  cases hacq : base.GetReadyEnclave caller st.pool with
  | mk r pool' =>
    cases r with
    | error e => intro s i n j hm; simp at hm
    | ok idx =>
      dsimp only
      cases hsub : workorder.HandleWorkOrderRequest compute st.store sealed req idx with
      | mk r2 store' =>
        cases r2 with
        | error e => intro s i n j hm; simp at hm
        | ok pr =>
          obtain ⟨rid, rsize⟩ := pr
          dsimp only
          cases hf : workorder.GetSerializedResponse store' sealed rid rsize idx with
          | mk r3 store'' =>
            cases r3 with
            | error e =>
              intro s i n j hm
              simp at hm
              obtain ⟨rfl, -, -, rfl⟩ := hm
              exact ⟨rfl, by simp⟩
            | ok resp =>
              intro s i n j hm
              simp at hm
              obtain ⟨rfl, -, -, rfl⟩ := hm
              exact ⟨rfl, by simp⟩

/-- C10 witness: in a concrete successful run, the fetch event's sealed
argument "sd2" equals the façade input, and the submit event carries the same
string. -/
theorem facade_fetch_receives_sealed_data_witness :
    "sd2" = "sd2" ∧ FacadeEvent.submitEv "sd2" "rq2" 4
      ∈ (HandleWorkOrderRequest (fun _ _ => Except.ok [5]) 1
          ⟨⟨[4], []⟩, ResponseStore.empty⟩ "sd2" "rq2").2.2 :=
  facade_fetch_receives_sealed_data (fun _ _ => Except.ok [5]) 1
    ⟨⟨[4], []⟩, ResponseStore.empty⟩ "sd2" "rq2" "sd2" 0 1 4
    (List.Mem.tail _ (List.Mem.tail _ (List.Mem.head _)))
